import Mathlib

/-!
Verification of the optimization engine of the Alkahtani–Davizón inventory
dashboard (src/main.py).  The engine is the function
`alkahtani_optimization(D, S_m, S_v, h_m, h_v, alpha_m, alpha_v)`
(src/main.py lines 111–156): it builds the total-cost function
TC(Q) = (S_m + S_v)·D/Q + (Q/2)·(h_m·(1+alpha_m) + h_v·(1+alpha_v)),
symbolically differentiates it, solves dTC/dQ = 0 over the positive reals,
and returns the first root together with the cost at that root, a
second-derivative convexity check, and a LaTeX rendering of dTC.
When the solve yields no positive root it returns the fallback
(0, 0, False, "").

The sympy computation is exact real arithmetic, so the embedding is over ℝ.
All definitions live in the namespace Alkahtani (the bare name TC is taken
by the library).
-/

namespace Alkahtani

open Classical

/-- Total cost TC(Q) from src/main.py lines 127–133:
setup cost (S_m + S_v)·D/Q plus defect-adjusted holding cost
(Q/2)·(h_m·(1+alpha_m) + h_v·(1+alpha_v)). -/
noncomputable def TC (D Sm Sv hm hv am av Q : ℝ) : ℝ :=
  (Sm + Sv) * D / Q + (Q / 2) * (hm * (1 + am) + hv * (1 + av))

/-- First derivative dTC/dQ, the result of the symbolic differentiation at
src/main.py line 136: d/dQ of (S·D/Q + (Q/2)·H) is -S·D/Q² + H/2. -/
noncomputable def dTC (D Sm Sv hm hv am av Q : ℝ) : ℝ :=
  -((Sm + Sv) * D) / Q ^ 2 + (hm * (1 + am) + hv * (1 + av)) / 2

/-- Second derivative d²TC/dQ², the result of the symbolic differentiation at
src/main.py line 139: 2·S·D/Q³ (the holding term vanishes). -/
noncomputable def d2TC (D Sm Sv hm hv am av Q : ℝ) : ℝ :=
  2 * ((Sm + Sv) * D) / Q ^ 3

/-- Fidelity of dTC: away from Q = 0 it is the derivative of TC. -/
theorem hasDerivAt_TC (D Sm Sv hm hv am av Q : ℝ) (hQ : Q ≠ 0) :
    HasDerivAt (TC D Sm Sv hm hv am av) (dTC D Sm Sv hm hv am av Q) Q := by
  have h1 : HasDerivAt (fun q : ℝ => (Sm + Sv) * D * q⁻¹)
      ((Sm + Sv) * D * (-(Q ^ 2)⁻¹)) Q := (hasDerivAt_inv hQ).const_mul _
  have h2 : HasDerivAt (fun q : ℝ => q / 2 * (hm * (1 + am) + hv * (1 + av)))
      (1 / 2 * (hm * (1 + am) + hv * (1 + av))) Q :=
    ((hasDerivAt_id Q).div_const 2).mul_const _
  have h3 := h1.add h2
  have hfun : (TC D Sm Sv hm hv am av) =
      fun q : ℝ => (Sm + Sv) * D * q⁻¹ + q / 2 * (hm * (1 + am) + hv * (1 + av)) := by
    funext q
    simp [TC, div_eq_mul_inv]
  rw [hfun]
  convert h3 using 1
  simp [dTC, div_eq_mul_inv]
  ring

/-- Fidelity of d2TC: away from Q = 0 it is the derivative of dTC. -/
theorem hasDerivAt_dTC (D Sm Sv hm hv am av Q : ℝ) (hQ : Q ≠ 0) :
    HasDerivAt (dTC D Sm Sv hm hv am av) (d2TC D Sm Sv hm hv am av Q) Q := by
  have hpow : HasDerivAt (fun q : ℝ => q ^ 2) (2 * Q ^ 1) Q := by
    simpa using hasDerivAt_pow 2 Q
  have hinv : HasDerivAt (fun q : ℝ => (q ^ 2)⁻¹) (-(2 * Q ^ 1) / (Q ^ 2) ^ 2) Q :=
    hpow.inv (pow_ne_zero 2 hQ)
  have h1 : HasDerivAt (fun q : ℝ => -((Sm + Sv) * D) * (q ^ 2)⁻¹)
      (-((Sm + Sv) * D) * (-(2 * Q ^ 1) / (Q ^ 2) ^ 2)) Q := hinv.const_mul _
  have h3 := h1.add_const ((hm * (1 + am) + hv * (1 + av)) / 2)
  have hfun : (dTC D Sm Sv hm hv am av) =
      fun q : ℝ => -((Sm + Sv) * D) * (q ^ 2)⁻¹ + (hm * (1 + am) + hv * (1 + av)) / 2 := by
    funext q
    simp [dTC, div_eq_mul_inv]
  rw [hfun]
  convert h3 using 1
  field_simp [d2TC]
  ring

/-- Positive real roots of dTC/dQ = 0, as computed by sp.solve at
src/main.py line 142 with Q declared a positive real symbol.
The equation -S·D/Q² + H/2 = 0 with Q > 0 rewrites to Q² = 2·S·D/H;
a positive real root exists exactly when S·D and H are nonzero and of the
same sign, i.e. when S·D·H > 0, and then the unique root is
sqrt(2·S·D/H).  (When S·D = 0 and H = 0 the derivative is identically
zero and sympy's solve of the zero expression returns the empty list.) -/
noncomputable def dTC_sol (D Sm Sv hm hv am av : ℝ) : List ℝ :=
  if 0 < (Sm + Sv) * D * (hm * (1 + am) + hv * (1 + av)) then
    [Real.sqrt (2 * ((Sm + Sv) * D) / (hm * (1 + am) + hv * (1 + av)))]
  else []

/-- Stand-in for sympy's LaTeX rendering of dTC (src/main.py line 154);
the exact text is produced by the external sympy library and no property
here depends on it beyond its being returned (and nonempty) on the success
path, while the fallback path returns the empty string. -/
def latex_dTC : String := "- \\frac{S D}{Q^2} + \\frac{H}{2}"

/-- The quadruple returned by alkahtani_optimization at src/main.py
line 156 (and the fallback shape at lines 124 and 145). -/
structure OptResult where
  q_opt : ℝ
  min_cost : ℝ
  is_convex : Prop
  latex_derivative : String

/-- Shallow embedding of alkahtani_optimization (src/main.py lines 111–156):
solve dTC/dQ = 0 over positive Q; if the solution list is empty return the
fallback (0, 0, False, ""); otherwise take the first root q_opt and return
(q_opt, TC(q_opt), d2TC(q_opt) > 0, latex(dTC)).  The guard at line 123
(comparing the fresh sympy symbol Q to the number 0) is always false and is
dead code, so it is not modelled. -/
noncomputable def alkahtani_optimization (D Sm Sv hm hv am av : ℝ) : OptResult :=
  match dTC_sol D Sm Sv hm hv am av with
  | [] => ⟨0, 0, False, ""⟩
  | q_opt :: _ =>
      ⟨q_opt, TC D Sm Sv hm hv am av q_opt,
       0 < d2TC D Sm Sv hm hv am av q_opt, latex_dTC⟩

/-- Branch lemma: when S·D·H > 0 the solver finds the closed-form root and
the optimizer returns it with its diagnostics. -/
theorem alkahtani_pos (D Sm Sv hm hv am av : ℝ)
    (h : 0 < (Sm + Sv) * D * (hm * (1 + am) + hv * (1 + av))) :
    alkahtani_optimization D Sm Sv hm hv am av =
      ⟨Real.sqrt (2 * ((Sm + Sv) * D) / (hm * (1 + am) + hv * (1 + av))),
       TC D Sm Sv hm hv am av
         (Real.sqrt (2 * ((Sm + Sv) * D) / (hm * (1 + am) + hv * (1 + av)))),
       0 < d2TC D Sm Sv hm hv am av
         (Real.sqrt (2 * ((Sm + Sv) * D) / (hm * (1 + am) + hv * (1 + av)))),
       latex_dTC⟩ := by
  unfold alkahtani_optimization dTC_sol
  rw [if_pos h]

/-- Branch lemma: when it is not the case that S·D·H > 0 the solution list
is empty and the optimizer returns the fallback. -/
theorem alkahtani_neg (D Sm Sv hm hv am av : ℝ)
    (h : ¬ 0 < (Sm + Sv) * D * (hm * (1 + am) + hv * (1 + av))) :
    alkahtani_optimization D Sm Sv hm hv am av = ⟨0, 0, False, ""⟩ := by
  unfold alkahtani_optimization dTC_sol
  rw [if_neg h]

/-- C1: for every setup cost S = S_m + S_v > 0, effective (defect-adjusted)
holding cost h_eff = h_m·(1+alpha_m) + h_v·(1+alpha_v) > 0 and demand D > 0,
the solve returns exactly Q* = sqrt(2·S·D/h_eff) (the real-arithmetic
embedding gives the identity exactly, hence within any tolerance). -/
theorem C1_closed_form_qstar (D Sm Sv hm hv am av : ℝ)
    (hS : 0 < Sm + Sv) (hH : 0 < hm * (1 + am) + hv * (1 + av)) (hD : 0 < D) :
    (alkahtani_optimization D Sm Sv hm hv am av).q_opt =
      Real.sqrt (2 * ((Sm + Sv) * D) / (hm * (1 + am) + hv * (1 + av))) := by
  rw [alkahtani_pos D Sm Sv hm hv am av (by positivity)]

/-- Witness for C1 at D = 1, S_m = 1, S_v = 1, h_m = 2, h_v = 0,
alpha_m = alpha_v = 0. -/
theorem C1_witness :
    (0 : ℝ) < 1 + 1 ∧ (0 : ℝ) < 2 * (1 + 0) + 0 * (1 + 0) ∧ (0 : ℝ) < 1 ∧
    (alkahtani_optimization 1 1 1 2 0 0 0).q_opt =
      Real.sqrt (2 * ((1 + 1) * 1) / (2 * (1 + 0) + 0 * (1 + 0))) :=
  ⟨by norm_num, by norm_num, by norm_num,
   C1_closed_form_qstar 1 1 1 2 0 0 0 (by norm_num) (by norm_num) (by norm_num)⟩

end Alkahtani

namespace Alkahtani

/-- C4 counterexample: at the spec's own guard-enforcement input
S = 10 (S_m = 10, S_v = 0), h = 0 (h_m = h_v = 0), alpha = 0, D = 100, the
code does not fail with an InvalidParameter error: alkahtani_optimization is
a total function and returns the numeric fallback quadruple (0, 0, False, ""),
contradicting the claim that no numeric result is ever returned for
non-positive holding cost. -/
theorem C4_counterexample :
    alkahtani_optimization 100 10 0 0 0 0 0 = ⟨0, 0, False, ""⟩ :=
  alkahtani_neg 100 10 0 0 0 0 0 (by norm_num)

/-- C4 amended: for every input with non-positive effective holding cost
(and non-negative S·D), the solve does not raise any error; it silently
returns the fallback quadruple (0, 0, False, "") — quantity 0 and cost 0 —
instead of the InvalidParameter failure the claim demands. -/
theorem C4_nonpositive_holding_fallback (D Sm Sv hm hv am av : ℝ)
    (hH : hm * (1 + am) + hv * (1 + av) ≤ 0) (hSD : 0 ≤ (Sm + Sv) * D) :
    alkahtani_optimization D Sm Sv hm hv am av = ⟨0, 0, False, ""⟩ := by
  apply alkahtani_neg
  exact not_lt.mpr (mul_nonpos_of_nonneg_of_nonpos hSD hH)

/-- Witness for C4 amended, at the guard-enforcement input
D = 100, S_m = 10, S_v = 0, h_m = h_v = 0, alpha_m = alpha_v = 0. -/
theorem C4_witness :
    ((0 : ℝ) * (1 + 0) + 0 * (1 + 0) ≤ 0) ∧ ((0 : ℝ) ≤ (10 + 0) * 100) ∧
    alkahtani_optimization 100 10 0 0 0 0 0 = ⟨0, 0, False, ""⟩ :=
  ⟨by norm_num, by norm_num,
   C4_nonpositive_holding_fallback 100 10 0 0 0 0 0 (by norm_num) (by norm_num)⟩

/-- C5: for demand D = 0 and any valid S_m, S_v, h_m, h_v, alpha_m, alpha_v
(positive costs, defect rates in [0,1)), the solve returns Q* = 0 and cost 0,
with the derivative diagnostics not computed from the derivative formulas:
the convexity flag is the constant False and the derivative formula is the
empty string (the fallback branch performs no division by Q). -/
theorem C5_zero_demand (Sm Sv hm hv am av : ℝ)
    (hSm : 0 < Sm) (hSv : 0 < Sv) (hhm : 0 < hm) (hhv : 0 < hv)
    (ham0 : 0 ≤ am) (ham1 : am < 1) (hav0 : 0 ≤ av) (hav1 : av < 1) :
    alkahtani_optimization 0 Sm Sv hm hv am av = ⟨0, 0, False, ""⟩ := by
  apply alkahtani_neg
  simp

/-- Witness for C5 at S_m = 2, S_v = 1, h_m = 1, h_v = 1,
alpha_m = alpha_v = 0, D = 0. -/
theorem C5_witness :
    (0 : ℝ) < 2 ∧ (0 : ℝ) < 1 ∧ (0 : ℝ) ≤ 0 ∧ (0 : ℝ) < 1 ∧
    alkahtani_optimization 0 2 1 1 1 0 0 = ⟨0, 0, False, ""⟩ :=
  ⟨by norm_num, by norm_num, le_refl 0, by norm_num,
   C5_zero_demand 2 1 1 1 0 0 (by norm_num) (by norm_num) (by norm_num)
     (by norm_num) (by norm_num) (by norm_num) (by norm_num) (by norm_num)⟩

/-- C6: for all valid inputs (S = S_m + S_v > 0, effective holding cost
h_eff > 0, D > 0), the first derivative of the total cost at the returned Q*
is exactly zero, the second derivative there is strictly positive, and the
returned convexity certificate holds. -/
theorem C6_derivative_certificate (D Sm Sv hm hv am av : ℝ)
    (hS : 0 < Sm + Sv) (hH : 0 < hm * (1 + am) + hv * (1 + av)) (hD : 0 < D) :
    dTC D Sm Sv hm hv am av (alkahtani_optimization D Sm Sv hm hv am av).q_opt = 0 ∧
    0 < d2TC D Sm Sv hm hv am av (alkahtani_optimization D Sm Sv hm hv am av).q_opt ∧
    (alkahtani_optimization D Sm Sv hm hv am av).is_convex := by
  have hcond : 0 < (Sm + Sv) * D * (hm * (1 + am) + hv * (1 + av)) := by positivity
  rw [alkahtani_pos D Sm Sv hm hv am av hcond]
  have harg : 0 < 2 * ((Sm + Sv) * D) / (hm * (1 + am) + hv * (1 + av)) := by positivity
  have hq : 0 < Real.sqrt (2 * ((Sm + Sv) * D) / (hm * (1 + am) + hv * (1 + av))) :=
    Real.sqrt_pos.mpr harg
  have hq2 : (Real.sqrt (2 * ((Sm + Sv) * D) / (hm * (1 + am) + hv * (1 + av)))) ^ 2 =
      2 * ((Sm + Sv) * D) / (hm * (1 + am) + hv * (1 + av)) :=
    Real.sq_sqrt harg.le
  have hSD : (Sm + Sv) * D ≠ 0 := by positivity
  have hHne : hm * (1 + am) + hv * (1 + av) ≠ 0 := ne_of_gt hH
  have hd2 : 0 < d2TC D Sm Sv hm hv am av
      (Real.sqrt (2 * ((Sm + Sv) * D) / (hm * (1 + am) + hv * (1 + av)))) := by
    unfold d2TC
    positivity
  refine ⟨?_, hd2, hd2⟩
  unfold dTC
  rw [hq2]
  field_simp
  ring

/-- Witness for C6 at D = 1, S_m = 1, S_v = 1, h_m = 2, h_v = 2,
alpha_m = alpha_v = 0. -/
theorem C6_witness :
    (0 : ℝ) < 1 + 1 ∧ (0 : ℝ) < 2 * (1 + 0) + 2 * (1 + 0) ∧ (0 : ℝ) < 1 ∧
    (dTC 1 1 1 2 2 0 0 (alkahtani_optimization 1 1 1 2 2 0 0).q_opt = 0 ∧
     0 < d2TC 1 1 1 2 2 0 0 (alkahtani_optimization 1 1 1 2 2 0 0).q_opt ∧
     (alkahtani_optimization 1 1 1 2 2 0 0).is_convex) :=
  ⟨by norm_num, by norm_num, by norm_num,
   C6_derivative_certificate 1 1 1 2 2 0 0 (by norm_num) (by norm_num) (by norm_num)⟩

/-- C9: whenever the optimizer returns a positive quantity q_opt (a positive
root was found), the min_cost returned alongside equals the total-cost
function evaluated at q_opt under the surcharge-adjusted joint model:
min_cost = (S_m + S_v)·D/q_opt + (q_opt/2)·(h_m·(1+alpha_m) + h_v·(1+alpha_v)). -/
theorem C9_cost_consistency (D Sm Sv hm hv am av : ℝ)
    (h : 0 < (alkahtani_optimization D Sm Sv hm hv am av).q_opt) :
    (alkahtani_optimization D Sm Sv hm hv am av).min_cost =
      (Sm + Sv) * D / (alkahtani_optimization D Sm Sv hm hv am av).q_opt +
      ((alkahtani_optimization D Sm Sv hm hv am av).q_opt / 2) *
        (hm * (1 + am) + hv * (1 + av)) := by
  by_cases hc : 0 < (Sm + Sv) * D * (hm * (1 + am) + hv * (1 + av))
  · rw [alkahtani_pos D Sm Sv hm hv am av hc]
    rfl
  · rw [alkahtani_neg D Sm Sv hm hv am av hc] at h
    exact absurd h (lt_irrefl 0)

/-- Witness for C9 at D = 1, S_m = 1, S_v = 1, h_m = 1, h_v = 1,
alpha_m = alpha_v = 0 (the root sqrt 2 is positive). -/
theorem C9_witness :
    0 < (alkahtani_optimization 1 1 1 1 1 0 0).q_opt ∧
    (alkahtani_optimization 1 1 1 1 1 0 0).min_cost =
      (1 + 1) * 1 / (alkahtani_optimization 1 1 1 1 1 0 0).q_opt +
      ((alkahtani_optimization 1 1 1 1 1 0 0).q_opt / 2) *
        (1 * (1 + 0) + 1 * (1 + 0)) := by
  have hq : 0 < (alkahtani_optimization 1 1 1 1 1 0 0).q_opt := by
    rw [alkahtani_pos 1 1 1 1 1 0 0 (by norm_num)]
    exact Real.sqrt_pos.mpr (by norm_num)
  exact ⟨hq, C9_cost_consistency 1 1 1 1 1 0 0 hq⟩

/-- C10: on every input where the stationarity equation dTC/dQ = 0 has no
positive real solution, the optimizer raises nothing and returns the fixed
fallback quadruple (0, 0, False, "") — quantity 0, cost 0, convexity
certificate False, empty derivative formula. -/
theorem C10_no_root_fallback (D Sm Sv hm hv am av : ℝ)
    (h : ¬ ∃ Q : ℝ, 0 < Q ∧ dTC D Sm Sv hm hv am av Q = 0) :
    alkahtani_optimization D Sm Sv hm hv am av = ⟨0, 0, False, ""⟩ := by
  apply alkahtani_neg
  intro hc
  apply h
  have hSD : (Sm + Sv) * D ≠ 0 := by
    intro h0
    rw [h0] at hc
    simp at hc
  have hHne : hm * (1 + am) + hv * (1 + av) ≠ 0 := by
    intro h0
    rw [h0] at hc
    simp at hc
  have harg : 0 < 2 * ((Sm + Sv) * D) / (hm * (1 + am) + hv * (1 + av)) := by
    rcases mul_pos_iff.mp hc with ⟨hSDpos, hHpos⟩ | ⟨hSDneg, hHneg⟩
    · positivity
    · have : 0 < (-(2 * ((Sm + Sv) * D))) / (-(hm * (1 + am) + hv * (1 + av))) := by
        apply div_pos <;> linarith
      rwa [neg_div_neg_eq] at this
  refine ⟨Real.sqrt (2 * ((Sm + Sv) * D) / (hm * (1 + am) + hv * (1 + av))),
    Real.sqrt_pos.mpr harg, ?_⟩
  have hq2 : (Real.sqrt (2 * ((Sm + Sv) * D) / (hm * (1 + am) + hv * (1 + av)))) ^ 2 =
      2 * ((Sm + Sv) * D) / (hm * (1 + am) + hv * (1 + av)) :=
    Real.sq_sqrt harg.le
  unfold dTC
  rw [hq2]
  field_simp
  ring

/-- Witness for C10 at D = 0, S_m = 1, S_v = 0, h_m = h_v = 1,
alpha_m = alpha_v = 0: there dTC(Q) = 1 for every Q, so the stationarity
equation has no (positive) solution, and the fallback is returned. -/
theorem C10_witness :
    (¬ ∃ Q : ℝ, 0 < Q ∧ dTC 0 1 0 1 1 0 0 Q = 0) ∧
    alkahtani_optimization 0 1 0 1 1 0 0 = ⟨0, 0, False, ""⟩ := by
  have h : ¬ ∃ Q : ℝ, 0 < Q ∧ dTC 0 1 0 1 1 0 0 Q = 0 := by
    rintro ⟨Q, hQ, hd⟩
    unfold dTC at hd
    norm_num at hd
  exact ⟨h, C10_no_root_fallback 0 1 0 1 1 0 0 h⟩

end Alkahtani

namespace Alkahtani

/-- C7: with all other parameters fixed and S = S_m + S_v > 0,
h_eff = h_m·(1+alpha_m) + h_v·(1+alpha_v) > 0, D > 0:
strictly increasing a setup cost strictly increases the returned Q*;
strictly increasing D strictly increases Q*; strictly increasing a holding
cost (and with it h_eff, for alpha_m ≥ 0) strictly decreases Q*. -/
theorem C7_monotonicity :
    (∀ D Sm Sm' Sv hm hv am av : ℝ, 0 < D →
      0 < hm * (1 + am) + hv * (1 + av) → 0 < Sm + Sv → Sm < Sm' →
      (alkahtani_optimization D Sm Sv hm hv am av).q_opt <
        (alkahtani_optimization D Sm' Sv hm hv am av).q_opt) ∧
    (∀ D D' Sm Sv hm hv am av : ℝ, 0 < Sm + Sv →
      0 < hm * (1 + am) + hv * (1 + av) → 0 < D → D < D' →
      (alkahtani_optimization D Sm Sv hm hv am av).q_opt <
        (alkahtani_optimization D' Sm Sv hm hv am av).q_opt) ∧
    (∀ D Sm Sv hm hm' hv am av : ℝ, 0 < Sm + Sv → 0 < D → 0 ≤ am →
      0 < hm * (1 + am) + hv * (1 + av) → hm < hm' →
      (alkahtani_optimization D Sm Sv hm' hv am av).q_opt <
        (alkahtani_optimization D Sm Sv hm hv am av).q_opt) := by
  refine ⟨?_, ?_, ?_⟩
  · intro D Sm Sm' Sv hm hv am av hD hH hS hlt
    have hS' : 0 < Sm' + Sv := by linarith
    rw [alkahtani_pos D Sm Sv hm hv am av (by positivity),
        alkahtani_pos D Sm' Sv hm hv am av (by positivity)]
    apply Real.sqrt_lt_sqrt (by positivity)
    apply div_lt_div_of_pos_right ?_ hH
    nlinarith
  · intro D D' Sm Sv hm hv am av hS hH hD hlt
    have hD' : 0 < D' := by linarith
    rw [alkahtani_pos D Sm Sv hm hv am av (by positivity),
        alkahtani_pos D' Sm Sv hm hv am av (by positivity)]
    apply Real.sqrt_lt_sqrt (by positivity)
    apply div_lt_div_of_pos_right ?_ hH
    nlinarith
  · intro D Sm Sv hm hm' hv am av hS hD ham hH hlt
    have hHlt : hm * (1 + am) + hv * (1 + av) < hm' * (1 + am) + hv * (1 + av) := by
      nlinarith
    have hH' : 0 < hm' * (1 + am) + hv * (1 + av) := lt_trans hH hHlt
    rw [alkahtani_pos D Sm Sv hm' hv am av (by positivity),
        alkahtani_pos D Sm Sv hm hv am av (by positivity)]
    apply Real.sqrt_lt_sqrt (by positivity)
    exact div_lt_div_of_pos_left (by positivity) hH hHlt

/-- Witness for C7, first conjunct, at D = 1, S_m = 1 < S_m' = 2, S_v = 0,
h_m = h_v = 1, alpha_m = alpha_v = 0. -/
theorem C7_witness :
    (alkahtani_optimization 1 1 0 1 1 0 0).q_opt <
      (alkahtani_optimization 1 2 0 1 1 0 0).q_opt :=
  C7_monotonicity.1 1 1 2 0 1 1 0 0 (by norm_num) (by norm_num) (by norm_num)
    (by norm_num)

/-- Following the spec's words, for comparison with the code (claim C2):
an echelon solved independently from its own setup cost S and its own
effective holding cost h_eff has optimal quantity sqrt(2·S·D/h_eff). -/
noncomputable def specEchelonQ (S heff D : ℝ) : ℝ :=
  Real.sqrt (2 * S * D / heff)

/-- Following the spec's words (claim C2): the annual cost of one echelon
computed independently at its own optimal quantity. -/
noncomputable def specEchelonCost (S heff D : ℝ) : ℝ :=
  S * D / specEchelonQ S heff D + heff * specEchelonQ S heff D / 2

/-- Following the spec's words (claim C2): the aggregate total cost as the
simple sum of the two echelons' independently computed costs (each echelon
gets its own Q* from its own S and its own defect-adjusted holding cost). -/
noncomputable def specIndependentTotalCost (D Sm Sv hm hv am av : ℝ) : ℝ :=
  specEchelonCost Sm (hm * (1 + am)) D + specEchelonCost Sv (hv * (1 + av)) D

/-- C2 counterexample: at D = 1, S_m = 1, S_v = 4, h_m = h_v = 2,
alpha_m = alpha_v = 0, the cost the code reports is the joint-model optimum
10/sqrt(5/2) = sqrt 40 ≈ 6.32, while the sum of the two echelons'
independently computed costs is 2 + 4 = 6.  The code therefore does not
solve the echelons independently: both echelons' parameters enter one cost
function minimized over a single shared order quantity. -/
theorem C2_counterexample :
    (alkahtani_optimization 1 1 4 2 2 0 0).min_cost ≠
      specIndependentTotalCost 1 1 4 2 2 0 0 := by
  rw [alkahtani_pos 1 1 4 2 2 0 0 (by norm_num)]
  have hspec : specIndependentTotalCost 1 1 4 2 2 0 0 = 6 := by
    unfold specIndependentTotalCost specEchelonCost specEchelonQ
    have h1 : Real.sqrt (2 * 1 * 1 / (2 * (1 + 0))) = 1 := by
      rw [show (2 : ℝ) * 1 * 1 / (2 * (1 + 0)) = 1 by norm_num, Real.sqrt_one]
    have h4 : Real.sqrt (2 * 4 * 1 / (2 * (1 + 0))) = 2 := by
      rw [show (2 : ℝ) * 4 * 1 / (2 * (1 + 0)) = 2 ^ 2 by norm_num,
          Real.sqrt_sq (by norm_num)]
    rw [h1, h4]
    norm_num
  rw [hspec]
  show TC 1 1 4 2 2 0 0 (Real.sqrt (2 * ((1 + 4) * 1) / (2 * (1 + 0) + 2 * (1 + 0)))) ≠ 6
  have harg : (2 : ℝ) * ((1 + 4) * 1) / (2 * (1 + 0) + 2 * (1 + 0)) = 5 / 2 := by
    norm_num
  rw [harg]
  have ht2 : (Real.sqrt (5 / 2)) ^ 2 = 5 / 2 := Real.sq_sqrt (by norm_num)
  have htpos : 0 < Real.sqrt (5 / 2) := Real.sqrt_pos.mpr (by norm_num)
  have hne : Real.sqrt (5 / 2) ≠ 0 := ne_of_gt htpos
  unfold TC
  intro heq
  have hprod := congrArg (fun x => x * Real.sqrt (5 / 2)) heq
  simp only [] at hprod
  have hL : ((1 + 4) * 1 / Real.sqrt (5 / 2) +
      Real.sqrt (5 / 2) / 2 * (2 * (1 + 0) + 2 * (1 + 0))) * Real.sqrt (5 / 2) =
      5 + 2 * (Real.sqrt (5 / 2)) ^ 2 := by
    rw [add_mul, div_mul_cancel₀ _ hne]
    ring
  rw [hL, ht2] at hprod
  norm_num at hprod
  nlinarith [ht2, hprod]

/-- C2 amended: the optimizer does not solve the echelons independently; it
solves a single joint EOQ in one shared order quantity.  For valid inputs
the returned Q* is sqrt(2·(S_m+S_v)·D / h_eff) with both echelons' setup
costs summed and both echelons' defect-adjusted holding costs summed into
h_eff, and the reported total cost is the joint cost function (which couples
the two echelons through the shared Q*) evaluated at that single Q*. -/
theorem C2_joint_shared_q (D Sm Sv hm hv am av : ℝ)
    (hS : 0 < Sm + Sv) (hH : 0 < hm * (1 + am) + hv * (1 + av)) (hD : 0 < D) :
    (alkahtani_optimization D Sm Sv hm hv am av).q_opt =
      Real.sqrt (2 * ((Sm + Sv) * D) / (hm * (1 + am) + hv * (1 + av))) ∧
    (alkahtani_optimization D Sm Sv hm hv am av).min_cost =
      TC D Sm Sv hm hv am av (alkahtani_optimization D Sm Sv hm hv am av).q_opt := by
  rw [alkahtani_pos D Sm Sv hm hv am av (by positivity)]
  exact ⟨rfl, rfl⟩

/-- Witness for C2 amended at D = 1, S_m = 1, S_v = 4, h_m = h_v = 2,
alpha_m = alpha_v = 0. -/
theorem C2_witness :
    (alkahtani_optimization 1 1 4 2 2 0 0).q_opt =
      Real.sqrt (2 * ((1 + 4) * 1) / (2 * (1 + 0) + 2 * (1 + 0))) ∧
    (alkahtani_optimization 1 1 4 2 2 0 0).min_cost =
      TC 1 1 4 2 2 0 0 (alkahtani_optimization 1 1 4 2 2 0 0).q_opt :=
  C2_joint_shared_q 1 1 4 2 2 0 0 (by norm_num) (by norm_num) (by norm_num)

end Alkahtani

namespace Alkahtani

/-- Defect-rate adjustment policy: the two modeling variants the spec
requires as caller-selectable configuration. -/
inductive Policy where
  | discount
  | surcharge

open Classical

/-- Modelled from the spec: the effective holding cost under the selected
adjustment policy — discount gives h·(1-alpha), surcharge gives h·(1+alpha).
The iterations of the repository carrying the discount variant are not
present under src/ (src/main.py hard-codes the surcharge form at line 127). -/
def h_eff (h alpha : ℝ) : Policy → ℝ
  | Policy.discount => h * (1 - alpha)
  | Policy.surcharge => h * (1 + alpha)

/-- The per-echelon solution record described by the spec: optimal quantity,
annual cost, and the two derivative diagnostics evaluated at Q*. -/
structure EchelonSolution where
  Qstar : ℝ
  cost : ℝ
  dAtQ : ℝ
  d2AtQ : ℝ

/-- Modelled from the spec: the per-echelon solver with caller-selectable
adjustment policy (solveEchelon).  This operation exists in repository
iterations that are not under src/; src/main.py only contains the joint
surcharge-form solve.  Per the spec: compute h_eff by the selected policy;
fail with InvalidParameter if h ≤ 0 or h_eff ≤ 0; for D = 0 return Q* = 0,
cost 0 and zero diagnostics; otherwise return the closed form
Q* = sqrt(2·S·D/h_eff) with its cost and derivative diagnostics. -/
noncomputable def solveEchelon (S h alpha D : ℝ) (p : Policy) :
    Except String EchelonSolution :=
  if h ≤ 0 ∨ h_eff h alpha p ≤ 0 then
    Except.error "InvalidParameter: holding cost must be positive"
  else if D = 0 then
    Except.ok ⟨0, 0, 0, 0⟩
  else
    Except.ok ⟨Real.sqrt (2 * S * D / h_eff h alpha p),
      S * D / Real.sqrt (2 * S * D / h_eff h alpha p) +
        h_eff h alpha p * Real.sqrt (2 * S * D / h_eff h alpha p) / 2,
      -(S * D) / (Real.sqrt (2 * S * D / h_eff h alpha p)) ^ 2 + h_eff h alpha p / 2,
      2 * S * D / (Real.sqrt (2 * S * D / h_eff h alpha p)) ^ 3⟩

/-- Branch lemma for solveEchelon on the success path. -/
theorem solveEchelon_ok (S h alpha D : ℝ) (p : Policy)
    (hg : ¬ (h ≤ 0 ∨ h_eff h alpha p ≤ 0)) (hD : D ≠ 0) :
    solveEchelon S h alpha D p =
      Except.ok ⟨Real.sqrt (2 * S * D / h_eff h alpha p),
        S * D / Real.sqrt (2 * S * D / h_eff h alpha p) +
          h_eff h alpha p * Real.sqrt (2 * S * D / h_eff h alpha p) / 2,
        -(S * D) / (Real.sqrt (2 * S * D / h_eff h alpha p)) ^ 2 + h_eff h alpha p / 2,
        2 * S * D / (Real.sqrt (2 * S * D / h_eff h alpha p)) ^ 3⟩ := by
  unfold solveEchelon
  rw [if_neg hg, if_neg hD]

/-- C3: both adjustment policies are caller-selectable configuration of
solveEchelon, and at S = 200, h = 2.0, alpha = 0.05, D = 1000 the two
policies yield different Q*, with the discount policy's Q* strictly larger
than the surcharge policy's (h_eff is 1.9 vs 2.1). -/
theorem C3_policy_divergence :
    ∃ sd ss : EchelonSolution,
      solveEchelon 200 2 0.05 1000 Policy.discount = Except.ok sd ∧
      solveEchelon 200 2 0.05 1000 Policy.surcharge = Except.ok ss ∧
      ss.Qstar < sd.Qstar ∧ ss.Qstar ≠ sd.Qstar := by
  rw [solveEchelon_ok 200 2 0.05 1000 Policy.discount
        (by simp only [h_eff]; push_neg; norm_num) (by norm_num),
      solveEchelon_ok 200 2 0.05 1000 Policy.surcharge
        (by simp only [h_eff]; push_neg; norm_num) (by norm_num)]
  refine ⟨_, _, rfl, rfl, ?_, ?_⟩
  · simp only [h_eff]
    apply Real.sqrt_lt_sqrt (by norm_num)
    norm_num
  · apply ne_of_lt
    simp only [h_eff]
    apply Real.sqrt_lt_sqrt (by norm_num)
    norm_num

end Alkahtani

namespace Alkahtani

/-- Modelled from the spec: sampleCostCurve, the pure cost-curve sampling
helper used for visualization.  This operation exists in a repository
iteration that is not under src/.  Per the spec: for Q_star = 0 fail with
InvalidParameter (the range collapses to a single point); otherwise return
num_points pairs (Q, cost) with Q linearly spaced across
[Q_star·range_factor_low, Q_star·range_factor_high] and
cost = S·D/Q + h_eff·Q/2.  Rational inputs suffice for the sampling (no
square root is taken here), so the model is executable over ℚ. -/
def sampleCostCurve (S heff D Qstar lo hi : ℚ) (num_points : ℕ) :
    Except String (List (ℚ × ℚ)) :=
  if Qstar = 0 then
    Except.error "InvalidParameter: range collapses to a single point"
  else
    let a := Qstar * lo
    let step := (Qstar * hi - Qstar * lo) / ((num_points : ℚ) - 1)
    Except.ok ((List.range num_points).map (fun i : ℕ =>
      let q := a + (i : ℚ) * step
      (q, S * D / q + heff * q / 2)))

/-- C8: for Q_star > 0 (with range factors low < high and at least two
points), sampleCostCurve succeeds and returns exactly num_points pairs whose
Q values are linearly and evenly spaced — the i-th Q is
Q_star·lo + i·(Q_star·hi - Q_star·lo)/(num_points - 1), so they run from
Q_star·lo to Q_star·hi — and strictly increasing; for Q_star = 0 it fails
with InvalidParameter rather than returning a degenerate sequence. -/
theorem C8_sample_cost_curve :
    (∀ S heff D Qstar lo hi : ℚ, ∀ n : ℕ, 0 < Qstar → lo < hi → 2 ≤ n →
      ∃ pts : List (ℚ × ℚ),
        sampleCostCurve S heff D Qstar lo hi n = Except.ok pts ∧
        pts.length = n ∧
        (∀ i : ℕ, ∀ h : i < pts.length, (pts.get ⟨i, h⟩).1 =
          Qstar * lo + (i : ℚ) * ((Qstar * hi - Qstar * lo) / ((n : ℚ) - 1))) ∧
        (∀ i : ℕ, ∀ h : i + 1 < pts.length,
          (pts.get ⟨i, Nat.lt_of_succ_lt h⟩).1 < (pts.get ⟨i + 1, h⟩).1)) ∧
    (∀ S heff D lo hi : ℚ, ∀ n : ℕ,
      sampleCostCurve S heff D 0 lo hi n =
        Except.error "InvalidParameter: range collapses to a single point") := by
  constructor
  · intro S heff D Qstar lo hi n hQ hlohi hn
    have hQne : Qstar ≠ 0 := ne_of_gt hQ
    have hstep : 0 < (Qstar * hi - Qstar * lo) / ((n : ℚ) - 1) := by
      apply div_pos
      · nlinarith [mul_pos hQ (sub_pos.mpr hlohi)]
      · have h2 : (2 : ℚ) ≤ (n : ℚ) := by exact_mod_cast hn
        linarith
    refine ⟨(List.range n).map (fun i : ℕ =>
      (Qstar * lo + (i : ℚ) * ((Qstar * hi - Qstar * lo) / ((n : ℚ) - 1)),
       S * D / (Qstar * lo + (i : ℚ) * ((Qstar * hi - Qstar * lo) / ((n : ℚ) - 1))) +
         heff * (Qstar * lo + (i : ℚ) * ((Qstar * hi - Qstar * lo) / ((n : ℚ) - 1))) / 2)),
      ?_, ?_, ?_, ?_⟩
    · simp only [sampleCostCurve, if_neg hQne]
    · simp
    · intro i h
      simp [List.get_eq_getElem, List.getElem_map, List.getElem_range]
    · intro i h
      simp only [List.get_eq_getElem, List.getElem_map, List.getElem_range]
      push_cast
      nlinarith [hstep]
  · intro S heff D lo hi n
    simp [sampleCostCurve]

/-- Witness for C8 at S = 1, h_eff = 1, D = 1, Q_star = 2,
range factors 1/2 and 2, num_points = 3. -/
theorem C8_witness :
    ∃ pts : List (ℚ × ℚ),
      sampleCostCurve 1 1 1 2 (1 / 2) 2 3 = Except.ok pts ∧
      pts.length = 3 ∧
      (∀ i : ℕ, ∀ h : i < pts.length, (pts.get ⟨i, h⟩).1 =
        2 * (1 / 2) + (i : ℚ) * ((2 * 2 - 2 * (1 / 2)) / (((3 : ℕ) : ℚ) - 1))) ∧
      (∀ i : ℕ, ∀ h : i + 1 < pts.length,
        (pts.get ⟨i, Nat.lt_of_succ_lt h⟩).1 < (pts.get ⟨i + 1, h⟩).1) :=
  C8_sample_cost_curve.1 1 1 1 2 (1 / 2) 2 3 (by norm_num) (by norm_num) (by norm_num)

end Alkahtani
